import Mathlib

/-!
Verification of the RDN_PK5 data-ingestion pipeline.

Shallow embedding of the repository's four Python modules:
  * `src/downloader/file_downloader.py` (`OptimizedFileDownloader`)
  * `src/processor/data_processor.py`  (`OptimizedDataProcessor`)
  * `src/database/mongo_connector.py`  (`OptimizedMongoConnector`)
  * `src/main.py`                      (`main`)

Conventions of the embedding:
  * Python runtime values flowing through rows and documents are modelled by
    the inductive type `PyObj`; Python floats are modelled as exact rationals
    (the JSON payloads carry decimal literals, which this idealises).
  * `datetime` instants are modelled as integer seconds since the Unix epoch
    (UTC).  The Europe/Warsaw timezone lookup done by `pytz` is modelled by
    the EU daylight-saving rule in force since 1996 (DST from the last Sunday
    of March, 01:00 UTC, to the last Sunday of October, 01:00 UTC; offsets
    +1h standard / +2h DST), which covers every date this pipeline processes.
  * Code that can raise an uncaught Python exception is modelled in the
    `Except Unit` monad; `.error ()` stands for "the call raises".
  * The MongoDB collection is modelled as a list of `StoredDoc`; the calls
    the code issues against it are additionally recorded as a `List MOp`
    trace so that claims about *which* storage primitives run are statable.
-/

namespace RDN

/-- Python runtime values appearing in rows and output documents.
Floats are modelled as exact rationals, `datetime` as epoch seconds. -/
inductive PyObj where
  | none
  | pbool (b : Bool)
  | pint (n : Int)
  | pfloat (q : ℚ)
  | pstr (s : String)
  | pdatetime (t : Int)
  | plist (xs : List PyObj)
  | pdict (fs : List (String × PyObj))

/-- Python truthiness (`bool(v)`), as used by `if row.get('business_date')`
and by the persistence guard. -/
def truthy : PyObj → Bool
  | .none => false
  | .pbool b => b
  | .pint n => n != 0
  | .pfloat q => q != 0
  | .pstr s => !s.isEmpty
  | .pdatetime _ => true
  | .plist xs => !xs.isEmpty
  | .pdict fs => !fs.isEmpty

/-- `dict.get(k)` with default `None` on an association list (Python dicts
in this pipeline have unique keys, so first-match lookup is faithful). -/
def dictGetD (fs : List (String × PyObj)) (k : String) : PyObj :=
  (fs.lookup k).getD PyObj.none

/-- A row must be a `dict` for `row.get` to work; anything else makes the
Python loop raise `AttributeError`. -/
def asDict : PyObj → Option (List (String × PyObj))
  | .pdict fs => some fs
  | _ => Option.none

/-! ### Decimal string parsing (Python `float(str)`)

`float()` accepts an optionally signed decimal with optional fractional part
and optional exponent, surrounded by optional whitespace.  (`inf`/`nan` and
underscore separators are not modelled; no value in this pipeline uses them.)
-/

/-- Parse a non-empty run of digits, returning the value, the count of
digits consumed and the rest of the input. -/
def parseDigits : List Char → Nat → Nat → (Nat × Nat × List Char)
  | [], acc, cnt => (acc, cnt, [])
  | c :: cs, acc, cnt =>
    if c.isDigit then parseDigits cs (acc * 10 + (c.toNat - '0'.toNat)) (cnt + 1)
    else (acc, cnt, c :: cs)

/-- Optional sign; returns `(negative, rest)`. -/
def parseSign : List Char → (Bool × List Char)
  | '-' :: cs => (true, cs)
  | '+' :: cs => (false, cs)
  | cs => (false, cs)

/-- Exponent part `e<int>` (optional); `Option.none` when malformed. -/
def parseExponent : List Char → Option Int
  | [] => some 0
  | c :: cs =>
    if c = 'e' ∨ c = 'E' then
      let (neg, cs1) := parseSign cs
      let (v, cnt, rest) := parseDigits cs1 0 0
      if cnt = 0 ∨ ¬rest.isEmpty then Option.none
      else some (if neg then -(v : Int) else (v : Int))
    else Option.none

/-- Fractional part `.digits` then optional exponent: returns the fraction
as a rational together with the exponent, when well formed. -/
def parseFraction : List Char → Option (ℚ × Int)
  | [] => some (0, 0)
  | '.' :: cs =>
    let (v, cnt, rest) := parseDigits cs 0 0
    match parseExponent rest with
    | some e => some ((v : ℚ) / ((10 : ℚ) ^ cnt), e)
    | Option.none => Option.none
  | cs =>
    match parseExponent cs with
    | some e => some (0, e)
    | Option.none => Option.none

/-- Model of Python `float(s)` for a string `s`: `some q` when the string is
a valid decimal literal, `Option.none` when `float()` raises `ValueError`. -/
def parseFloatQ (s : String) : Option ℚ :=
  let cs := (s.trim).toList
  let (neg, cs1) := parseSign cs
  let (ip, icnt, rest) := parseDigits cs1 0 0
  -- at least one digit must appear in the integer or fractional part
  match rest with
  | '.' :: fs =>
    let (fv, fcnt, rest2) := parseDigits fs 0 0
    if icnt = 0 ∧ fcnt = 0 then Option.none
    else
      match parseExponent rest2 with
      | some e =>
        let mag : ℚ := ((ip : ℚ) + (fv : ℚ) / ((10 : ℚ) ^ fcnt)) * (10 : ℚ) ^ e
        some (if neg then -mag else mag)
      | Option.none => Option.none
  | _ =>
    if icnt = 0 then Option.none
    else
      match parseExponent rest with
      | some e =>
        let mag : ℚ := (ip : ℚ) * (10 : ℚ) ^ e
        some (if neg then -mag else mag)
      | Option.none => Option.none

/-- Model of Python `float(v)`: numeric and numeric-string values convert;
everything else raises (modelled as `Option.none`). -/
def pyFloat : PyObj → Option ℚ
  | .pint n => some (n : ℚ)
  | .pfloat q => some q
  | .pbool b => some (if b then 1 else 0)
  | .pstr s => parseFloatQ s
  | _ => Option.none

/-- Python 3 `round(x)` on a real value: nearest integer, ties to even. -/
def roundHalfEven (q : ℚ) : Int :=
  let f := ⌊q⌋
  let r := q - (f : ℚ)
  if r < 1 / 2 then f
  else if r > 1 / 2 then f + 1
  else if f % 2 = 0 then f else f + 1

/-- `OptimizedDataProcessor._to_int`: `None` stays `None`; otherwise
`int(round(float(v)))`, with any conversion failure yielding `None`. -/
def to_int (v : PyObj) : PyObj :=
  match v with
  | .none => .none
  | _ =>
    match pyFloat v with
    | some q => .pint (roundHalfEven q)
    | Option.none => .none

/-! ### `strptime` for the two fixed formats

Python's `_strptime` matches `%Y` as exactly four digits, `%m`/`%d`/`%H` as
one or two digits within range, `%M`/`%S` as one or two digits `0..59`, with
the literal separators in between and nothing left over; the resulting
`datetime` constructor additionally validates the day against the month
length.  Because every separator in these formats is a non-digit, the
regex's ordered two-digit-first alternation is equivalent to the greedy
two-digit-first strategy implemented here.
-/

/-- Take one or two leading digits subject to the given bounds
(two-digit form tried first), mirroring `_strptime`'s field regexes.
`allowLeadingZero2` tells whether a two-digit form may start with `0`. -/
def takeField (lo hi : Nat) : List Char → Option (Nat × List Char)
  | c1 :: c2 :: cs =>
    if c1.isDigit ∧ c2.isDigit then
      let v := (c1.toNat - '0'.toNat) * 10 + (c2.toNat - '0'.toNat)
      if lo ≤ v ∧ v ≤ hi then some (v, cs) else Option.none
    else if c1.isDigit then
      let v := c1.toNat - '0'.toNat
      if lo ≤ v ∧ v ≤ hi then some (v, c2 :: cs) else Option.none
    else Option.none
  | [c1] =>
    if c1.isDigit then
      let v := c1.toNat - '0'.toNat
      if lo ≤ v ∧ v ≤ hi then some (v, []) else Option.none
    else Option.none
  | [] => Option.none

/-- Exactly four digits (the `%Y` field). -/
def takeYear : List Char → Option (Nat × List Char)
  | c1 :: c2 :: c3 :: c4 :: cs =>
    if c1.isDigit ∧ c2.isDigit ∧ c3.isDigit ∧ c4.isDigit then
      some ((c1.toNat - '0'.toNat) * 1000 + (c2.toNat - '0'.toNat) * 100 +
            (c3.toNat - '0'.toNat) * 10 + (c4.toNat - '0'.toNat), cs)
    else Option.none
  | _ => Option.none

/-- Expect a literal character. -/
def takeLit (c : Char) : List Char → Option (List Char)
  | d :: cs => if d = c then some cs else Option.none
  | [] => Option.none

def isLeapYear (y : Nat) : Bool :=
  (y % 4 = 0 ∧ y % 100 ≠ 0) ∨ y % 400 = 0

def daysInMonth (y m : Nat) : Nat :=
  if m = 2 then (if isLeapYear y then 29 else 28)
  else if m = 4 ∨ m = 6 ∨ m = 9 ∨ m = 11 then 30
  else 31

/-- `datetime.strptime(s, '%Y-%m-%d')` → `(year, month, day)`;
`Option.none` when it raises `ValueError`. -/
def parseDate (s : String) : Option (Nat × Nat × Nat) := do
  let cs := s.toList
  let (y, cs) ← takeYear cs
  let cs ← takeLit '-' cs
  let (m, cs) ← takeField 1 12 cs
  let cs ← takeLit '-' cs
  let (d, cs) ← takeField 1 31 cs
  if cs.isEmpty ∧ 1 ≤ y ∧ d ≤ daysInMonth y m then pure (y, m, d) else Option.none

/-- `datetime.strptime(s, '%Y-%m-%d %H:%M:%S')` →
`(year, month, day, hour, minute, second)`; `Option.none` on `ValueError`. -/
def parseDateTime (s : String) : Option (Nat × Nat × Nat × Nat × Nat × Nat) := do
  let cs := s.toList
  let (y, cs) ← takeYear cs
  let cs ← takeLit '-' cs
  let (m, cs) ← takeField 1 12 cs
  let cs ← takeLit '-' cs
  let (d, cs) ← takeField 1 31 cs
  let cs ← takeLit ' ' cs
  let (hh, cs) ← takeField 0 23 cs
  let cs ← takeLit ':' cs
  let (mi, cs) ← takeField 0 59 cs
  let cs ← takeLit ':' cs
  let (ss, cs) ← takeField 0 59 cs
  if cs.isEmpty ∧ 1 ≤ y ∧ d ≤ daysInMonth y m then pure (y, m, d, hh, mi, ss)
  else Option.none

/-- The hour `process_json_value` extracts from a row's `plan_dtime` value:
`int(datetime.strptime(v, '%Y-%m-%d %H:%M:%S').hour)`, where a non-string
value or a parse failure raises inside the `try` and yields `None`. -/
def hourFromPlan : PyObj → Option Nat
  | .pstr s => (parseDateTime s).map (fun t => t.2.2.2.1)
  | _ => Option.none

/-! ### Civil-calendar arithmetic and the Europe/Warsaw timezone -/

/-- Days from 1970-01-01 for a civil date (Howard Hinnant's algorithm,
which the `datetime`/`pytz` date arithmetic agrees with). -/
def daysFromCivil (y : Int) (m d : Nat) : Int :=
  let yy : Int := if m ≤ 2 then y - 1 else y
  let era : Int := (if 0 ≤ yy then yy else yy - 399) / 400
  let yoe : Int := yy - era * 400
  let mp : Int := (m + 9 : Int) % 12
  let doy : Int := (153 * mp + 2) / 5 + (d : Int) - 1
  let doe : Int := yoe * 365 + yoe / 4 - yoe / 100 + doy
  era * 146097 + doe - 719468

/-- Day of week with Sunday = 0 (1970-01-01 was a Thursday). -/
def dayOfWeek (y : Int) (m d : Nat) : Int :=
  (daysFromCivil y m d + 4) % 7

/-- Day-of-month of the last Sunday of the given month. -/
def lastSundayOf (y : Int) (m : Nat) : Int :=
  let L := daysInMonth y.toNat m
  (L : Int) - dayOfWeek y m L

/-- Whether local midnight of the given Warsaw civil date falls in DST
(EU rule: DST strictly after the last Sunday of March and up to and
including the last Sunday of October — the autumn switch is at 03:00
local, after midnight). -/
def warsawMidnightDST (y : Int) (m d : Nat) : Bool :=
  (3 < m ∨ (m = 3 ∧ lastSundayOf y 3 < (d : Int))) ∧
  (m < 10 ∨ (m = 10 ∧ (d : Int) ≤ lastSundayOf y 10))

/-- `OptimizedDataProcessor._start_of_business_day_utc`: parse the
`business_date` string and return Warsaw local midnight of that date as a
UTC instant (epoch seconds).  `Option.none` models the uncaught
`ValueError` raised by `strptime` on a malformed date. -/
def start_of_business_day_utc (s : String) : Option Int :=
  (parseDate s).map fun t =>
    let y := t.1; let m := t.2.1; let d := t.2.2
    daysFromCivil (y : Int) m d * 86400 -
      (if warsawMidnightDST (y : Int) m d then 7200 else 3600)

/-! ### The transformer (`OptimizedDataProcessor.process_json_value`) -/

/-- `FIELD_MAPPING` from `data_processor.py`: API key → technical name,
in the source's declaration order. -/
def FIELD_MAPPING : List (String × String) :=
  [("grid_demand_fcst", "Prognozowane_zapotrzebowanie_sieci"),
   ("req_pow_res", "Wymagana_rezerwa_mocy_OSP"),
   ("surplus_cap_avail_tso", "Nadwyzka_mocy_dostepna_dla_OSP_(7)_+_(9)_-_[(3)_-_(12)]_-_(13)"),
   ("gen_surplus_avail_tso_above", "Nadwyzka_mocy_dostepna_dla_OSP_ponad_wymagana_rezerwe_moc_(5)_-_(4)"),
   ("avail_cap_gen_units_stor_prov", "Moc_dyspozycyjna_JW_i_magazynow_energii_swiadczacych_uslugi_bilansujace_w_ramach_RB"),
   ("avail_cap_gen_units_stor_prov_tso", "Moc_dyspozycyjna_JW_i_magazynow_energii_swiadczacych_uslugi_bilansujace_w_ramach_RB_dostepna_dla_OSP"),
   ("fcst_gen_unit_stor_prov", "Przewidywana_generacja_JW_i_magazynow_energii_swiadczacych_uslugi_bilansujace_w_ramach_RB_(3)_-_(9)"),
   ("fcst_gen_unit_stor_non_prov", "Prognozowana_generacja_JW_i_magazynow_energii_nie_swiadczacych_uslug_bilansujacych_w_ramach_RB"),
   ("fcst_wi_tot_gen", "Prognozowana_sumaryczna_generacja_zrodel_wiatrowych"),
   ("fcst_pv_tot_gen", "Prognozowana_sumaryczna_generacja_zrodel_fotowoltaicznych"),
   ("planned_exchange", "Planowane_saldo_wymiany_miedzysystemowej"),
   ("fcst_unav_energy", "Prognozowana_wielkosc_niedyspozycyjnosci_wynikajaca_z_ograniczen_sieciowych_wystepujacych_w_sieci_przesylowej_oraz_sieci_dystrybucyjnej_w_zakresie_dostarczania_energii_elektrycznej"),
   ("sum_unav_oper_cond", "Prognozowana_wielkosc_niedyspozycyjnosci_wynikajacych_z_warunkow_eksploatacyjnych_JW_swiadczacych_uslugi_bilansujace_w_ramach_RB"),
   ("pred_gen_res_not_cov", "Przewidywana_generacja_zasobow_wytworczych_nieobjetych_obowiazkami_mocowymi"),
   ("cap_market_obligation", "Obowiazki_mocowe_wszystkich_jednostek_rynku_mocy")]

/-- A normalized output record (Python dict in insertion order). -/
abbrev NRec : Type := List (String × PyObj)

/-- Replace the value at the first occurrence of a key, keeping its
position (Python `doc[col] = v` on an existing key). -/
def setVal (d : List (String × PyObj)) (k : String) (v : PyObj) :
    List (String × PyObj) :=
  match d with
  | [] => []
  | (k0, v0) :: rest =>
    if k0 = k then (k0, v) :: rest else (k0, v0) :: setVal rest k v

/-- One step of the coercion loop: `if col in doc: doc[col] = _to_int(doc[col])`. -/
def intColStep (d : NRec) (c : String) : NRec :=
  match List.lookup c d with
  | some v => setVal d c (to_int v)
  | Option.none => d

/-- The loop `for col in int_cols: if col in doc: doc[col] = _to_int(doc[col])`. -/
def applyIntCols (cols : List String) (d : NRec) : NRec :=
  cols.foldl intColStep d

/-- The dict built for one row before integer coercion:
`{'Doba': ..., 'Godzina': ...}` followed by the `FIELD_MAPPING` loop. -/
def baseDoc (doba : PyObj) (godz : Option Nat) (fs : List (String × PyObj)) : NRec :=
  ("Doba", doba) ::
  ("Godzina", match godz with | some h => PyObj.pint (h : Int) | Option.none => PyObj.none) ::
  FIELD_MAPPING.map (fun p => (p.2, dictGetD fs p.1))

/-- One iteration's document, given the current `start_day_utc`. -/
def mkDoc (intCols : List String) (startDay : Option Int)
    (fs : List (String × PyObj)) : NRec :=
  let godz := hourFromPlan (dictGetD fs "plan_dtime")
  let doba : PyObj :=
    match startDay, godz with
    | some t, some h => PyObj.pdatetime (t + 3600 * (h : Int))
    | _, _ => PyObj.none
  applyIntCols intCols (baseDoc doba godz fs)

/-- `start_day_utc` update for one row: set it from the first row whose
`business_date` is truthy.  A truthy non-string or a malformed date string
makes `strptime` raise outside any `try`, aborting the whole call. -/
def stepStartDay (startDay : Option Int) (fs : List (String × PyObj)) :
    Except Unit (Option Int) :=
  if startDay.isNone ∧ truthy (dictGetD fs "business_date") then
    match dictGetD fs "business_date" with
    | .pstr s =>
      match start_of_business_day_utc s with
      | some t => .ok (some t)
      | Option.none => .error ()
    | _ => .error ()
  else .ok startDay

/-- The `for row in items` loop of `process_json_value`: returns the
output records and the final `start_day_utc`.  A non-dict row makes
`row.get` raise `AttributeError` (modelled `.error ()`). -/
def processRowsAux (intCols : List String) :
    Option Int → List PyObj → Except Unit (List NRec × Option Int)
  | startDay, [] => .ok ([], startDay)
  | startDay, row :: rest =>
    match asDict row with
    | Option.none => .error ()
    | some fs =>
      match stepStartDay startDay fs with
      | .error e => .error e
      | .ok sd2 =>
        match processRowsAux intCols sd2 rest with
        | .ok (docs, sdF) => .ok (mkDoc intCols sd2 fs :: docs, sdF)
        | .error e => .error e

/-- `items` extraction at the top of `process_json_value`: a dict yields
`json_obj.get('value', [])` (which must then be iterable and its elements
must be dicts — iterating `None`/a number raises `TypeError`; iterating a
non-empty string or dict yields strings, which fail at `row.get`), a list
is used as is, anything else yields `[]`. -/
def getItems : PyObj → Except Unit (List PyObj)
  | .pdict fs =>
    match List.lookup "value" fs with
    | Option.none => .ok []
    | some (.plist xs) => .ok xs
    | some (.pstr s) => if s.isEmpty then .ok [] else .error ()
    | some (.pdict gs) => if gs.isEmpty then .ok [] else .error ()
    | some _ => .error ()
  | .plist xs => .ok xs
  | _ => .ok []

/-! ### The repository (Mongo persistence step) -/

/-- One persisted per-day document (`_id`, `data_cet`, `first`, `newest`,
`last_update`). -/
structure StoredDoc where
  oid : Nat
  data_cet : Int
  first : List NRec
  newest : List NRec
  last_update : Int

/-- The Mongo collection, modelled as the list of its documents. -/
abbrev Store : Type := List StoredDoc

/-- The storage primitives the code issues, recorded as a trace.
`update_one` carries pymongo's `upsert` flag (the code never passes it,
so it is `false` at every call site). -/
inductive MOp where
  | find_one (data_cet : Int)
  | insert_one (data_cet : Int) (first newest : List NRec) (last_update : Int)
  | update_one (oid : Nat) (newest : List NRec) (last_update : Int) (upsert : Bool)

/-- `find_one({'data_cet': k})`. -/
def findOneByDataCet (st : Store) (k : Int) : Option StoredDoc :=
  st.find? (fun d => d.data_cet = k)

/-- Effect of `update_one({'_id': oid}, {'$set': {'newest': r, 'last_update': n}})`. -/
def updateNewest (st : Store) (oid : Nat) (r : List NRec) (n : Int) : Store :=
  st.map (fun d => if d.oid = oid then { d with newest := r, last_update := n } else d)

/-- Processor state relevant to `process_json_value`, plus the behaviour of
its collaborators for one run: `connect_ok` is what
`OptimizedMongoConnector.connect()` returns (it catches its own exceptions
and returns a bool), and `write_ok` tells whether the single
`insert_one`/`update_one` call succeeds (if not, pymongo raises and the
exception propagates — there is no `try` around the persistence block). -/
structure Processor where
  int_cols : List String
  has_mongo : Bool
  kolekcja_mongo : Option String
  connect_ok : Bool
  write_ok : Bool

/-- Truthiness of `self.kolekcja_mongo` (a `None` or empty string is falsy). -/
def kolTruthy : Option String → Bool
  | Option.none => false
  | some s => !s.isEmpty

/-- `OptimizedDataProcessor.process_json_value`: transform the payload and
perform the per-day persistence step.  Returns the transformed records,
the resulting collection contents, and the trace of storage calls made. -/
def process_json_value (p : Processor) (json_obj : PyObj) (store : Store)
    (now : Int) : Except Unit (List NRec × Store × List MOp) :=
  match getItems json_obj with
  | .error e => .error e
  | .ok items =>
    match processRowsAux p.int_cols Option.none items with
    | .error e => .error e
    | .ok (result, start_day_utc) =>
      match start_day_utc with
      | Option.none => .ok (result, store, [])
      | some data_cet =>
        if p.has_mongo && kolTruthy p.kolekcja_mongo && !result.isEmpty then
          if p.connect_ok then
            match findOneByDataCet store data_cet with
            | some existing =>
              if p.write_ok then
                .ok (result, updateNewest store existing.oid result now,
                     [MOp.find_one data_cet,
                      MOp.update_one existing.oid result now false])
              else .error ()
            | Option.none =>
              if p.write_ok then
                .ok (result,
                     store ++ [⟨store.length, data_cet, result, result, now⟩],
                     [MOp.find_one data_cet,
                      MOp.insert_one data_cet result result now])
              else .error ()
          else .ok (result, store, [])
        else .ok (result, store, [])

/-! ### The fetcher (`OptimizedFileDownloader`) -/

/-- `MAX_RETRIES = 10` from `file_downloader.py`. -/
def MAX_RETRIES : Nat := 10

/-- `RETRY_DELAY = 5 * 60` seconds from `file_downloader.py`. -/
def RETRY_DELAY : Nat := 5 * 60

/-- Outcome of one `requests.get` in `download`: either a raised
`RequestException` (transport failure, identified by a code) or a
completed response with a status and a body. -/
inductive HResp where
  | exc (e : Nat)
  | resp (status : Nat) (body : String)
deriving DecidableEq

/-- The failure recorded for a failed attempt. -/
inductive FetchErr where
  | requestExc (e : Nat)
  | httpStatus (s : Nat)
deriving DecidableEq

/-- One attempt of `download`: `response.raise_for_status()` raises
`HTTPError` (a `RequestException`) exactly for statuses 400–599; any other
completed response returns `response.content` — there is no body-size
check. -/
def classifyResp : HResp → Except FetchErr String
  | .exc e => .error (.requestExc e)
  | .resp st body =>
    if 400 ≤ st ∧ st < 600 then .error (.httpStatus st) else .ok body

/-- Result of `download`: the body with the number of attempts made and the
total seconds slept, or exhaustion carrying the last failure.
`fellThrough` is the `while` loop exiting without a `return` (Python would
return `None`); it is unreachable for `MAX_RETRIES > 0`. -/
inductive DlResult where
  | ok (body : String) (attemptsMade totalSleep : Nat)
  | exhausted (lastErr : FetchErr) (attemptsMade totalSleep : Nat)
  | fellThrough (totalSleep : Nat)
deriving DecidableEq

/-- The retry loop of `download`, with `fuel = MAX_RETRIES - retries`:
on failure number `retries+1`, raise if the budget is exhausted, otherwise
`time.sleep(RETRY_DELAY)` and retry. -/
def download_go (att : Nat → HResp) : Nat → Nat → Nat → DlResult
  | 0, _, slept => .fellThrough slept
  | fuel + 1, i, slept =>
    match classifyResp (att i) with
    | .ok body => .ok body (i + 1) slept
    | .error e =>
      if fuel = 0 then .exhausted e (i + 1) slept
      else download_go att fuel (i + 1) (slept + RETRY_DELAY)

/-- `OptimizedFileDownloader.download`, run against the sequence of
attempt outcomes `att`. -/
def download (att : Nat → HResp) : DlResult :=
  download_go att MAX_RETRIES 0 0

/-- Outcome of one `requests.get` in `download_json`: a `RequestException`,
or a completed response whose body parses to `parsed` (`Option.none` when
`response.json()` raises `ValueError`). -/
inductive JResp where
  | exc (e : Nat)
  | resp (status : Nat) (parsed : Option PyObj)

/-- Result of `download_json`.  `jsonDecodeError` models `response.json()`
raising on a 2xx response — that exception is not a `RequestException`, so
it propagates immediately instead of being retried. -/
inductive JDlResult where
  | ok (payload : PyObj) (attemptsMade totalSleep : Nat)
  | exhausted (lastErr : FetchErr) (attemptsMade totalSleep : Nat)
  | jsonDecodeError (attemptsMade totalSleep : Nat)
  | fellThrough (totalSleep : Nat)

/-- One attempt of `download_json` up to `raise_for_status`: a raised
`RequestException` or a 4xx/5xx status is a retried failure; any other
completed response hands its parsed body (`Option.none` when
`response.json()` raises) to the caller. -/
def jClassify : JResp → Except FetchErr (Option PyObj)
  | .exc e => .error (.requestExc e)
  | .resp st parsed =>
    if 400 ≤ st ∧ st < 600 then .error (.httpStatus st) else .ok parsed

/-- The retry loop of `download_json` (same structure as `download_go`;
a `ValueError` from `response.json()` is not a `RequestException`, so it
aborts immediately instead of being retried). -/
def download_json_go (att : Nat → JResp) : Nat → Nat → Nat → JDlResult
  | 0, _, slept => .fellThrough slept
  | fuel + 1, i, slept =>
    match jClassify (att i) with
    | .error e =>
      if fuel = 0 then .exhausted e (i + 1) slept
      else download_json_go att fuel (i + 1) (slept + RETRY_DELAY)
    | .ok (some j) => .ok j (i + 1) slept
    | .ok Option.none => .jsonDecodeError (i + 1) slept

/-- `OptimizedFileDownloader.download_json`. -/
def download_json (att : Nat → JResp) : JDlResult :=
  download_json_go att MAX_RETRIES 0 0

/-! ### The entry point (`main`) -/

/-- Modelled from the spec: `OptimizedDataProcessor.process_and_save` is
called from `main` but its definition is absent from `src/`.  Per the
spec's control flow (Fetcher → Transformer → Repository, one run) it
fetches the JSON payload with `download_json`, transforms and persists it
with `process_json_value`, returns `True` on success, and propagates any
fatal error (fetch exhaustion, uncaught processing/storage exception) to
the caller. -/
def process_and_save (dl : JDlResult) (p : Processor) (store : Store)
    (now : Int) : Except Unit (Bool × Store) :=
  match dl with
  | .ok payload _ _ =>
    match process_json_value p payload store now with
    | .ok (_, st, _) => .ok (true, st)
    | .error e => .error e
  | .exhausted _ _ _ => .error ()
  | .jsonDecodeError _ _ => .error ()
  | .fellThrough _ => .error ()

/-- `main` from `src/main.py`, reduced to its exit code.  `configOk` is
whether `load_config` returns (it calls `sys.exit(1)` on a missing file or
invalid JSON); `pipeline` is the outcome of `processor.process_and_save()`
inside the `try`: `return 0` when it is truthily `True`, `return 1` when it
is falsy, and `return 1` from the `except` when it raises.  The `finally`
block calls `mongo_connector.disconnect()` — also absent from `src/` and
modelled from the spec as closing the connection, with no effect on the
exit code. -/
def main_exit (configOk : Bool) (pipeline : Except Unit Bool) : Nat :=
  if configOk then
    match pipeline with
    | .ok true => 0
    | .ok false => 1
    | .error _ => 1
  else 1

/-! ### Concrete inputs used by witnesses and counterexamples -/

/-- The spec's §8 scenario row. -/
def scenRowFields : List (String × PyObj) :=
  [("plan_dtime", PyObj.pstr "2024-03-10 02:00:00"),
   ("business_date", PyObj.pstr "2024-03-10"),
   ("grid_demand_fcst", PyObj.pfloat (152347 / 10))]

def scenRow : PyObj := PyObj.pdict scenRowFields

def scenPayload : PyObj := PyObj.pdict [("value", PyObj.plist [scenRow])]

/-- A processor with the scenario's integer-column list and a healthy,
configured Mongo connector. -/
def scenProc : Processor :=
  ⟨["Prognozowane_zapotrzebowanie_sieci"], true, some "pk5l", true, true⟩

/-- The record the scenario payload transforms to. -/
def scenRes : List NRec :=
  [mkDoc ["Prognozowane_zapotrzebowanie_sieci"] (some 1710025200) scenRowFields]

/-- A row with a parsable `plan_dtime` but no `business_date`. -/
def noBDFields : List (String × PyObj) :=
  [("plan_dtime", PyObj.pstr "2024-03-10 02:00:00")]

def noBDRow : PyObj := PyObj.pdict noBDFields

/-- A row carrying both fields. -/
def bdFields : List (String × PyObj) :=
  [("plan_dtime", PyObj.pstr "2024-03-10 03:00:00"),
   ("business_date", PyObj.pstr "2024-03-10")]

def bdRow : PyObj := PyObj.pdict bdFields

/-- What the two-row batch `[noBDRow, bdRow]` transforms to. -/
def mixedRes : List NRec :=
  [mkDoc [] Option.none noBDFields, mkDoc [] (some 1710025200) bdFields]

/-- Same processor as `scenProc` but whose `connect()` call fails. -/
def noConnProc : Processor :=
  ⟨["Prognozowane_zapotrzebowanie_sieci"], true, some "pk5l", false, true⟩

/-- Whether a row is a dict whose `business_date` value is truthy
(the condition under which the loop derives the day key from it). -/
def rowCarries (row : PyObj) : Bool :=
  match asDict row with
  | some fs => truthy (dictGetD fs "business_date")
  | Option.none => false

/-- The hour the loop extracts from a row (for relating rows to docs). -/
def rowHour (row : PyObj) : Option Nat :=
  match asDict row with
  | some fs => hourFromPlan (dictGetD fs "plan_dtime")
  | Option.none => Option.none

/-! ### Association-list and coercion lemmas -/

theorem setVal_keys (d : List (String × PyObj)) (k : String) (v : PyObj) :
    (setVal d k v).map Prod.fst = d.map Prod.fst := by
  induction d with
  | nil => rfl
  | cons hd tl ih =>
    obtain ⟨k0, v0⟩ := hd
    by_cases h : k0 = k <;> simp [setVal, h, ih]

theorem lookup_setVal_self (d : List (String × PyObj)) (k : String)
    (v w : PyObj) (h : List.lookup k d = some w) :
    List.lookup k (setVal d k v) = some v := by
  induction d with
  | nil => simp [List.lookup] at h
  | cons hd tl ih =>
    obtain ⟨k0, v0⟩ := hd
    by_cases hk : k = k0
    · subst hk; simp [setVal, List.lookup]
    · have hbeq : (k == k0) = false := beq_eq_false_iff_ne.mpr hk
      have hk2 : ¬k0 = k := fun hh => hk hh.symm
      simp only [List.lookup, hbeq] at h
      simp only [setVal, if_neg hk2, List.lookup, hbeq]
      exact ih h

theorem lookup_setVal_ne (d : List (String × PyObj)) (k c : String)
    (v : PyObj) (h : k ≠ c) :
    List.lookup k (setVal d c v) = List.lookup k d := by
  induction d with
  | nil => rfl
  | cons hd tl ih =>
    obtain ⟨k0, v0⟩ := hd
    by_cases hk : k0 = c
    · subst hk
      have hbeq : (k == k0) = false := beq_eq_false_iff_ne.mpr h
      simp only [setVal, if_pos rfl, List.lookup, hbeq]
    · by_cases hk0 : k = k0
      · subst hk0; simp [setVal, if_neg hk, List.lookup]
      · have hbeq : (k == k0) = false := beq_eq_false_iff_ne.mpr hk0
        simp only [setVal, if_neg hk, List.lookup, hbeq]
        exact ih

theorem intColStep_keys (d : NRec) (c : String) :
    (intColStep d c).map Prod.fst = d.map Prod.fst := by
  unfold intColStep
  cases List.lookup c d with
  | none => rfl
  | some v => exact setVal_keys d c (to_int v)

theorem applyIntCols_keys (cols : List String) (d : NRec) :
    (applyIntCols cols d).map Prod.fst = d.map Prod.fst := by
  induction cols generalizing d with
  | nil => rfl
  | cons c cs ih =>
    show (applyIntCols cs (intColStep d c)).map Prod.fst = d.map Prod.fst
    exact (ih (intColStep d c)).trans (intColStep_keys d c)

theorem roundHalfEven_intCast (n : Int) : roundHalfEven (n : ℚ) = n := by
  simp only [roundHalfEven, Int.floor_intCast, sub_self]
  norm_num

theorem to_int_idem (v : PyObj) : to_int (to_int v) = to_int v := by
  cases v with
  | none => rfl
  | pbool b =>
    cases b <;> simp [to_int, pyFloat, roundHalfEven_intCast]
  | pint n => simp [to_int, pyFloat, roundHalfEven_intCast]
  | pfloat q =>
    show to_int (PyObj.pint (roundHalfEven q)) = PyObj.pint (roundHalfEven q)
    simp [to_int, pyFloat, roundHalfEven_intCast]
  | pstr s =>
    cases h : parseFloatQ s with
    | none => show to_int (to_int (PyObj.pstr s)) = to_int (PyObj.pstr s)
              simp [to_int, pyFloat, h]
    | some q => show to_int (to_int (PyObj.pstr s)) = to_int (PyObj.pstr s)
                simp [to_int, pyFloat, h, roundHalfEven_intCast]
  | pdatetime t => rfl
  | plist xs => rfl
  | pdict fs => rfl

theorem lookup_applyIntCols_stable (cols : List String) (d : NRec)
    (k : String) (v : PyObj) (h : List.lookup k d = some (to_int v)) :
    List.lookup k (applyIntCols cols d) = some (to_int v) := by
  induction cols generalizing d with
  | nil => exact h
  | cons c cs ih =>
    show List.lookup k (applyIntCols cs (intColStep d c)) = some (to_int v)
    refine ih (intColStep d c) ?_
    unfold intColStep
    cases hc : List.lookup c d with
    | none => exact h
    | some w =>
      by_cases hk : k = c
      · subst hk
        rw [hc] at h; injection h with h
        rw [lookup_setVal_self d k (to_int w) w hc, h, to_int_idem]
      · rw [lookup_setVal_ne d k c (to_int w) hk]; exact h

theorem lookup_applyIntCols_mem (cols : List String) (d : NRec)
    (k : String) (v : PyObj) (hmem : k ∈ cols)
    (h : List.lookup k d = some v) :
    List.lookup k (applyIntCols cols d) = some (to_int v) := by
  induction cols generalizing d with
  | nil => cases hmem
  | cons c cs ih =>
    show List.lookup k (applyIntCols cs (intColStep d c)) = some (to_int v)
    by_cases hk : k = c
    · subst hk
      refine lookup_applyIntCols_stable cs _ k v ?_
      unfold intColStep
      rw [h]
      exact lookup_setVal_self d k (to_int v) v h
    · cases hmem with
      | head => exact absurd rfl hk
      | tail _ hmem2 =>
        refine ih (intColStep d c) hmem2 ?_
        unfold intColStep
        cases hc : List.lookup c d with
        | none => exact h
        | some w => rw [lookup_setVal_ne d k c (to_int w) hk]; exact h

theorem lookup_applyIntCols_notmem (cols : List String) (d : NRec)
    (k : String) (hmem : k ∉ cols) :
    List.lookup k (applyIntCols cols d) = List.lookup k d := by
  induction cols generalizing d with
  | nil => rfl
  | cons c cs ih =>
    have hk : k ≠ c := fun h => hmem (by simp [h])
    have hcs : k ∉ cs := fun h => hmem (by simp [h])
    show List.lookup k (applyIntCols cs (intColStep d c)) = List.lookup k d
    rw [ih (intColStep d c) hcs]
    unfold intColStep
    cases hc : List.lookup c d with
    | none => rfl
    | some w => exact lookup_setVal_ne d k c (to_int w) hk

/-! ### Document-shape lemmas -/

theorem FIELD_MAPPING_snd_nodup : (FIELD_MAPPING.map Prod.snd).Nodup := by
  decide

theorem FIELD_MAPPING_snd_ne_special :
    ∀ p ∈ FIELD_MAPPING, p.2 ≠ "Doba" ∧ p.2 ≠ "Godzina" := by
  decide

theorem lookup_mapped (g : String → PyObj) :
    ∀ (l : List (String × String)) (api tech : String),
      (l.map Prod.snd).Nodup → (api, tech) ∈ l →
      List.lookup tech (l.map (fun p => (p.2, g p.1))) = some (g api) := by
  intro l
  induction l with
  | nil => intro api tech _ hmem; cases hmem
  | cons hd tl ih =>
    intro api tech hnd hmem
    obtain ⟨a, t⟩ := hd
    simp only [List.map_cons, List.nodup_cons] at hnd
    cases hmem with
    | head =>
      simp [List.lookup]
    | tail _ hmem2 =>
      have htne : tech ≠ t := by
        intro hh
        exact hnd.1 (by
          subst hh
          exact List.mem_map.mpr ⟨(api, tech), hmem2, rfl⟩)
      have hbeq : (tech == t) = false := beq_eq_false_iff_ne.mpr htne
      simp only [List.map_cons, List.lookup, hbeq]
      exact ih api tech hnd.2 hmem2

theorem lookup_baseDoc_tech (doba : PyObj) (godz : Option Nat)
    (fs : List (String × PyObj)) (api tech : String)
    (hmem : (api, tech) ∈ FIELD_MAPPING) :
    List.lookup tech (baseDoc doba godz fs) = some (dictGetD fs api) := by
  have hne := FIELD_MAPPING_snd_ne_special (api, tech) hmem
  have h1 : (tech == "Doba") = false := beq_eq_false_iff_ne.mpr hne.1
  have h2 : (tech == "Godzina") = false := beq_eq_false_iff_ne.mpr hne.2
  simp only [baseDoc, List.lookup, h1, h2]
  exact lookup_mapped (fun a => dictGetD fs a) FIELD_MAPPING api tech
    FIELD_MAPPING_snd_nodup hmem

theorem lookup_baseDoc_Doba (doba : PyObj) (godz : Option Nat)
    (fs : List (String × PyObj)) :
    List.lookup "Doba" (baseDoc doba godz fs) = some doba := by
  simp [baseDoc, List.lookup]

theorem lookup_baseDoc_Godzina (doba : PyObj) (godz : Option Nat)
    (fs : List (String × PyObj)) :
    List.lookup "Godzina" (baseDoc doba godz fs) =
      some (match godz with
            | some h => PyObj.pint (h : Int)
            | Option.none => PyObj.none) := by
  simp [baseDoc, List.lookup]

/-- The per-record timestamp value the loop computes once the day key is
known: `day_start_utc + hour` hours when the hour parsed, `None` otherwise. -/
def dobaFor (t : Int) : Option Nat → PyObj
  | some h => PyObj.pdatetime (t + 3600 * (h : Int))
  | Option.none => PyObj.none

theorem lookup_mkDoc_Doba (cols : List String) (sd : Option Int)
    (fs : List (String × PyObj)) (hD : "Doba" ∉ cols) :
    List.lookup "Doba" (mkDoc cols sd fs) =
      some (match sd with
            | some t => dobaFor t (hourFromPlan (dictGetD fs "plan_dtime"))
            | Option.none => PyObj.none) := by
  unfold mkDoc
  rw [lookup_applyIntCols_notmem cols _ "Doba" hD, lookup_baseDoc_Doba]
  cases sd with
  | none => rfl
  | some t => cases hourFromPlan (dictGetD fs "plan_dtime") <;> rfl

theorem mkDoc_keys (cols : List String) (sd : Option Int)
    (fs : List (String × PyObj)) :
    (mkDoc cols sd fs).map Prod.fst =
      "Doba" :: "Godzina" :: FIELD_MAPPING.map Prod.snd := by
  unfold mkDoc
  rw [applyIntCols_keys]
  simp only [baseDoc, List.map_cons, List.map_map]
  rfl

/-! ### Loop-structure lemmas -/

theorem stepStartDay_some (t : Int) (fs : List (String × PyObj)) :
    stepStartDay (some t) fs = .ok (some t) := by
  simp [stepStartDay]

theorem processRowsAux_length (cols : List String) :
    ∀ (rows : List PyObj) (sd : Option Int) (res : List NRec) (sdF : Option Int),
      processRowsAux cols sd rows = .ok (res, sdF) → res.length = rows.length := by
  intro rows
  induction rows with
  | nil =>
    intro sd res sdF h
    simp only [processRowsAux, Except.ok.injEq, Prod.mk.injEq] at h
    rw [← h.1]
    rfl
  | cons row rest ih =>
    intro sd res sdF h
    simp only [processRowsAux] at h
    cases hd : asDict row with
    | none => simp only [hd] at h; exact Except.noConfusion h
    | some fs =>
      simp only [hd] at h
      cases hs : stepStartDay sd fs with
      | error e => simp only [hs] at h; exact Except.noConfusion h
      | ok sd2 =>
        simp only [hs] at h
        cases hr : processRowsAux cols sd2 rest with
        | error e => simp only [hr] at h; exact Except.noConfusion h
        | ok pr =>
          obtain ⟨docs, s2⟩ := pr
          simp only [hr, Except.ok.injEq, Prod.mk.injEq] at h
          rw [← h.1]
          simp [ih sd2 docs s2 hr]

/-- Once `start_day_utc` is set it never changes, and from then on every
produced document's `Doba` is `day_start + hour` hours exactly when the
row's hour parsed, `None` otherwise. -/
theorem processRowsAux_some (cols : List String) (t : Int)
    (hD : "Doba" ∉ cols) :
    ∀ (rows : List PyObj) (res : List NRec) (sdF : Option Int),
      processRowsAux cols (some t) rows = .ok (res, sdF) →
      sdF = some t ∧
      List.Forall₂
        (fun row doc => List.lookup "Doba" doc = some (dobaFor t (rowHour row)))
        rows res := by
  intro rows
  induction rows with
  | nil =>
    intro res sdF h
    simp only [processRowsAux, Except.ok.injEq, Prod.mk.injEq] at h
    rw [← h.1, ← h.2]
    exact ⟨rfl, List.Forall₂.nil⟩
  | cons row rest ih =>
    intro res sdF h
    simp only [processRowsAux] at h
    cases hd : asDict row with
    | none => simp only [hd] at h; exact Except.noConfusion h
    | some fs =>
      simp only [hd, stepStartDay_some] at h
      cases hr : processRowsAux cols (some t) rest with
      | error e => simp only [hr] at h; exact Except.noConfusion h
      | ok pr =>
        obtain ⟨docs, s2⟩ := pr
        simp only [hr, Except.ok.injEq, Prod.mk.injEq] at h
        obtain ⟨hres, hsd⟩ := h
        obtain ⟨hs2, hall⟩ := ih docs s2 hr
        refine ⟨by rw [← hsd, hs2], ?_⟩
        rw [← hres]
        refine List.Forall₂.cons ?_ hall
        rw [lookup_mkDoc_Doba cols (some t) fs hD]
        simp only [rowHour, hd]

/-- While no row's `business_date` is truthy, `start_day_utc` stays unset
and every produced document's `Doba` is `None`. -/
theorem processRowsAux_none_nocarrier (cols : List String)
    (hD : "Doba" ∉ cols) :
    ∀ (rows : List PyObj) (res : List NRec) (sdF : Option Int),
      (∀ r ∈ rows, rowCarries r = false) →
      processRowsAux cols Option.none rows = .ok (res, sdF) →
      sdF = Option.none ∧
      ∀ doc ∈ res, List.lookup "Doba" doc = some PyObj.none := by
  intro rows
  induction rows with
  | nil =>
    intro res sdF _ h
    simp only [processRowsAux, Except.ok.injEq, Prod.mk.injEq] at h
    rw [← h.1, ← h.2]
    exact ⟨rfl, by intro doc hdoc; cases hdoc⟩
  | cons row rest ih =>
    intro res sdF hnc h
    simp only [processRowsAux] at h
    cases hd : asDict row with
    | none => simp only [hd] at h; exact Except.noConfusion h
    | some fs =>
      have hcar : rowCarries row = false := hnc row (List.mem_cons_self row rest)
      have htr : truthy (dictGetD fs "business_date") = false := by
        simpa [rowCarries, hd] using hcar
      have hstep : stepStartDay Option.none fs = .ok Option.none := by
        simp [stepStartDay, htr]
      simp only [hd, hstep] at h
      cases hr : processRowsAux cols Option.none rest with
      | error e => simp only [hr] at h; exact Except.noConfusion h
      | ok pr =>
        obtain ⟨docs, s2⟩ := pr
        simp only [hr, Except.ok.injEq, Prod.mk.injEq] at h
        obtain ⟨hres, hsd⟩ := h
        obtain ⟨hs2, hall⟩ :=
          ih docs s2 (fun r hr2 => hnc r (List.mem_cons_of_mem row hr2)) hr
        refine ⟨by rw [← hsd, hs2], ?_⟩
        rw [← hres]
        intro doc hdoc
        cases hdoc with
        | head =>
          rw [lookup_mkDoc_Doba cols Option.none fs hD]
        | tail _ hdoc2 => exact hall doc hdoc2

/-- Splitting the loop at a non-carrying prefix: the records produced for
the prefix all get a `None` timestamp and the day key is still unset when
the remainder of the batch is processed. -/
theorem processRowsAux_split (cols : List String) (hD : "Doba" ∉ cols) :
    ∀ (pre z : List PyObj) (res : List NRec) (sdF : Option Int),
      (∀ r ∈ pre, rowCarries r = false) →
      processRowsAux cols Option.none (pre ++ z) = .ok (res, sdF) →
      ∃ resPre resZ, res = resPre ++ resZ ∧
        (∀ doc ∈ resPre, List.lookup "Doba" doc = some PyObj.none) ∧
        processRowsAux cols Option.none z = .ok (resZ, sdF) := by
  intro pre
  induction pre with
  | nil =>
    intro z res sdF _ h
    refine ⟨[], res, rfl, ?_, h⟩
    intro doc hdoc
    simp at hdoc
  | cons p pre ih =>
    intro z res sdF hnc h
    rw [List.cons_append] at h
    simp only [processRowsAux] at h
    cases hd : asDict p with
    | none => simp only [hd] at h; exact Except.noConfusion h
    | some fs =>
      have hcar : rowCarries p = false := hnc p (List.mem_cons_self p pre)
      have htr : truthy (dictGetD fs "business_date") = false := by
        simpa [rowCarries, hd] using hcar
      have hstep : stepStartDay Option.none fs = .ok Option.none := by
        simp [stepStartDay, htr]
      simp only [hd, hstep] at h
      cases hr : processRowsAux cols Option.none (pre ++ z) with
      | error e => simp only [hr] at h; exact Except.noConfusion h
      | ok pr =>
        obtain ⟨docs, s2⟩ := pr
        simp only [hr, Except.ok.injEq, Prod.mk.injEq] at h
        obtain ⟨hres, hsd⟩ := h
        obtain ⟨resPre, resZ, hsplit, hnull, hz⟩ :=
          ih z docs s2 (fun r hr2 => hnc r (List.mem_cons_of_mem p hr2)) hr
        refine ⟨mkDoc cols Option.none fs :: resPre, resZ, ?_, ?_, ?_⟩
        · rw [← hres, hsplit, List.cons_append]
        · intro doc hdoc
          cases hdoc with
          | head => rw [lookup_mkDoc_Doba cols Option.none fs hD]
          | tail _ hdoc2 => exact hnull doc hdoc2
        · rw [hz, hsd]

/-- Processing the first carrying row: the day key becomes the Warsaw
start-of-day of its `business_date`, and its own document already gets a
timestamp relative to that key. -/
theorem processRowsAux_carrier (cols : List String) (hD : "Doba" ∉ cols)
    (c : PyObj) (rest : List PyObj) (fs : List (String × PyObj)) (s : String)
    (t : Int) (res : List NRec) (sdF : Option Int)
    (hc : asDict c = some fs)
    (hbd : dictGetD fs "business_date" = PyObj.pstr s)
    (hne : s ≠ "")
    (hday : start_of_business_day_utc s = some t)
    (h : processRowsAux cols Option.none (c :: rest) = .ok (res, sdF)) :
    sdF = some t ∧
    List.Forall₂
      (fun row doc => List.lookup "Doba" doc = some (dobaFor t (rowHour row)))
      (c :: rest) res := by
  have hie : s.isEmpty = false := by
    cases hie2 : s.isEmpty
    · rfl
    · exact absurd ((String.isEmpty_iff s).mp hie2) hne
  have hstep : stepStartDay Option.none fs = .ok (some t) := by
    simp [stepStartDay, hbd, truthy, hie, hday]
  simp only [processRowsAux, hc, hstep] at h
  cases hr : processRowsAux cols (some t) rest with
  | error e => simp only [hr] at h; exact Except.noConfusion h
  | ok pr =>
    obtain ⟨docs, s2⟩ := pr
    simp only [hr, Except.ok.injEq, Prod.mk.injEq] at h
    obtain ⟨hres, hsd⟩ := h
    obtain ⟨hs2, hall⟩ := processRowsAux_some cols t hD rest docs s2 hr
    refine ⟨by rw [← hsd, hs2], ?_⟩
    rw [← hres]
    refine List.Forall₂.cons ?_ hall
    rw [lookup_mkDoc_Doba cols (some t) fs hD]
    simp only [rowHour, hc]

/-- `roundHalfEven` really is round-half-to-even: it is within 1/2 of its
argument, and at an exact tie it returns the even neighbour. -/
theorem roundHalfEven_nearest_even (q : ℚ) :
    |q - (roundHalfEven q : ℚ)| < 1 / 2 ∨
    (|q - (roundHalfEven q : ℚ)| = 1 / 2 ∧ roundHalfEven q % 2 = 0) := by
  have hf0 : ((⌊q⌋ : Int) : ℚ) ≤ q := Int.floor_le q
  have hf1 : q < (⌊q⌋ : Int) + 1 := Int.lt_floor_add_one q
  unfold roundHalfEven
  by_cases h1 : q - ((⌊q⌋ : Int) : ℚ) < 1 / 2
  · left
    rw [if_pos h1, abs_of_nonneg (by linarith)]
    exact h1
  · by_cases h2 : q - ((⌊q⌋ : Int) : ℚ) > 1 / 2
    · left
      rw [if_neg h1, if_pos h2]
      push_cast
      rw [abs_of_nonpos (by linarith)]
      linarith
    · have heq : q - ((⌊q⌋ : Int) : ℚ) = 1 / 2 :=
        le_antisymm (not_lt.mp h2) (not_lt.mp h1)
      rw [if_neg h1, if_neg h2]
      by_cases h3 : ⌊q⌋ % 2 = 0
      · right
        rw [if_pos h3, abs_of_nonneg (by linarith)]
        exact ⟨heq, h3⟩
      · right
        rw [if_neg h3]
        push_cast
        refine ⟨by rw [abs_of_nonpos (by linarith)]; linarith, ?_⟩
        omega

theorem roundHalfEven_15234_7 : roundHalfEven (152347 / 10 : ℚ) = 15235 := by
  have hf : (⌊(152347 / 10 : ℚ)⌋ : Int) = 15234 := by norm_num
  simp only [roundHalfEven, hf]
  norm_num

/-! ### Claims -/

/-- C8: for every input row set, every output record has exactly the fixed
mapping's output keys plus `Godzina` and `Doba`; an API key missing from a
row yields `null` for its mapped output field; and no record is dropped
(one output per input row, never an error from a missing field). -/
theorem claim8_field_completeness :
    ∀ (intCols : List String) (sd : Option Int) (fs : List (String × PyObj)),
      ((mkDoc intCols sd fs).map Prod.fst =
        "Doba" :: "Godzina" :: FIELD_MAPPING.map Prod.snd) ∧
      (∀ api tech, (api, tech) ∈ FIELD_MAPPING → List.lookup api fs = Option.none →
        List.lookup tech (mkDoc intCols sd fs) = some PyObj.none) ∧
      (∀ rows res sdF, processRowsAux intCols sd rows = .ok (res, sdF) →
        res.length = rows.length) := by
  intro intCols sd fs
  refine ⟨mkDoc_keys intCols sd fs, ?_,
    fun rows res sdF h => processRowsAux_length intCols rows sd res sdF h⟩
  intro api tech hmem hmiss
  have hdg : dictGetD fs api = PyObj.none := by simp [dictGetD, hmiss]
  simp only [mkDoc]
  by_cases hmemc : tech ∈ intCols
  · rw [lookup_applyIntCols_mem intCols _ tech (dictGetD fs api) hmemc
      (lookup_baseDoc_tech _ _ fs api tech hmem), hdg]
    rfl
  · rw [lookup_applyIntCols_notmem intCols _ tech hmemc,
      lookup_baseDoc_tech _ _ fs api tech hmem, hdg]

/-- Witness for C8 at the scenario row (missing key
`req_pow_res` comes out as `null`, and the key set is the fixed one). -/
theorem claim8_witness :
    ((mkDoc ["Prognozowane_zapotrzebowanie_sieci"] (some 1710025200)
        scenRowFields).map Prod.fst =
      "Doba" :: "Godzina" :: FIELD_MAPPING.map Prod.snd) ∧
    List.lookup "Wymagana_rezerwa_mocy_OSP"
      (mkDoc ["Prognozowane_zapotrzebowanie_sieci"] (some 1710025200)
        scenRowFields) = some PyObj.none :=
  ⟨(claim8_field_completeness ["Prognozowane_zapotrzebowanie_sieci"]
      (some 1710025200) scenRowFields).1,
   (claim8_field_completeness ["Prognozowane_zapotrzebowanie_sieci"]
      (some 1710025200) scenRowFields).2.1 "req_pow_res"
      "Wymagana_rezerwa_mocy_OSP" (by decide) rfl⟩

/-- C9: every output key in the configured integer-column list is coerced
with `_to_int`, which rounds numeric values half-to-even and yields `null`
on missing or non-numeric values; `15234.7` becomes `15235`. -/
theorem claim9_int_coercion :
    (∀ (intCols : List String) (sd : Option Int) (fs : List (String × PyObj))
       (api tech : String), (api, tech) ∈ FIELD_MAPPING → tech ∈ intCols →
       List.lookup tech (mkDoc intCols sd fs) = some (to_int (dictGetD fs api))) ∧
    (∀ q : ℚ, to_int (PyObj.pfloat q) = PyObj.pint (roundHalfEven q)) ∧
    to_int PyObj.none = PyObj.none ∧
    (∀ s : String, parseFloatQ s = Option.none → to_int (PyObj.pstr s) = PyObj.none) ∧
    (∀ q : ℚ, |q - (roundHalfEven q : ℚ)| < 1 / 2 ∨
      (|q - (roundHalfEven q : ℚ)| = 1 / 2 ∧ roundHalfEven q % 2 = 0)) ∧
    roundHalfEven (152347 / 10 : ℚ) = 15235 := by
  refine ⟨?_, fun q => rfl, rfl, ?_, roundHalfEven_nearest_even,
    roundHalfEven_15234_7⟩
  · intro intCols sd fs api tech hmem hmemc
    simp only [mkDoc]
    exact lookup_applyIntCols_mem intCols _ tech (dictGetD fs api) hmemc
      (lookup_baseDoc_tech _ _ fs api tech hmem)
  · intro s h
    simp [to_int, pyFloat, h]

/-- Witness for C9: the scenario value `15234.7` is coerced to the integer
`15235` in the produced document. -/
theorem claim9_witness :
    List.lookup "Prognozowane_zapotrzebowanie_sieci"
      (mkDoc ["Prognozowane_zapotrzebowanie_sieci"] (some 1710025200)
        scenRowFields) =
      some (to_int (dictGetD scenRowFields "grid_demand_fcst")) ∧
    to_int (dictGetD scenRowFields "grid_demand_fcst") = PyObj.pint 15235 :=
  ⟨claim9_int_coercion.1 ["Prognozowane_zapotrzebowanie_sieci"]
      (some 1710025200) scenRowFields "grid_demand_fcst"
      "Prognozowane_zapotrzebowanie_sieci" (by decide) (by decide),
   by
    show PyObj.pint (roundHalfEven (152347 / 10 : ℚ)) = PyObj.pint 15235
    rw [roundHalfEven_15234_7]⟩

/-- C7 is refuted at a two-row batch whose first row has a parsable hour
but no `business_date`: the batch's day key *is* derived (from the second
row), the first record's hour parses to 2, yet its `Doba` is `None`, not
`day_start_utc + 2` hours. -/
theorem claim7_counterexample :
    (processRowsAux [] Option.none [noBDRow, bdRow]).map
        (fun p => (p.2, p.1.map
          (fun d => (List.lookup "Godzina" d, List.lookup "Doba" d)))) =
      .ok (some 1710025200,
           [(some (PyObj.pint 2), some PyObj.none),
            (some (PyObj.pint 3), some (PyObj.pdatetime 1710036000))]) ∧
    some PyObj.none ≠ some (PyObj.pdatetime (1710025200 + 3600 * 2)) := by
  refine ⟨rfl, ?_⟩
  intro h
  injection h with h
  cases h

/-- C7 (amended): in a batch whose day key is derived from the first
record carrying a truthy `business_date`, every record from that one on
has `Doba = day_start_utc + hour` hours exactly when its hour parsed
(`None` when it did not), while every record before it has `Doba = None`
even when its hour parsed. -/
theorem claim7_amended_thm (cols : List String) (pre rest : List PyObj)
    (c : PyObj) (fs : List (String × PyObj)) (s : String) (t : Int)
    (res : List NRec) (sdF : Option Int)
    (hD : "Doba" ∉ cols)
    (hpre : ∀ r ∈ pre, rowCarries r = false)
    (hc : asDict c = some fs)
    (hbd : dictGetD fs "business_date" = PyObj.pstr s)
    (hne : s ≠ "")
    (hday : start_of_business_day_utc s = some t)
    (hproc : processRowsAux cols Option.none (pre ++ c :: rest) = .ok (res, sdF)) :
    sdF = some t ∧
    ∃ resPre resRest, res = resPre ++ resRest ∧
      (∀ doc ∈ resPre, List.lookup "Doba" doc = some PyObj.none) ∧
      List.Forall₂
        (fun row doc => List.lookup "Doba" doc = some (dobaFor t (rowHour row)))
        (c :: rest) resRest := by
  obtain ⟨resPre, resZ, hsplit, hnull, hz⟩ :=
    processRowsAux_split cols hD pre (c :: rest) res sdF hpre hproc
  obtain ⟨hsd, hall⟩ :=
    processRowsAux_carrier cols hD c rest fs s t resZ sdF hc hbd hne hday hz
  exact ⟨hsd, resPre, resZ, hsplit, hnull, hall⟩

/-- Witness for the amended C7 at the concrete two-row batch. -/
theorem claim7_amended_witness :
    (some 1710025200 : Option Int) = some 1710025200 ∧
    ∃ resPre resRest, mixedRes = resPre ++ resRest ∧
      (∀ doc ∈ resPre, List.lookup "Doba" doc = some PyObj.none) ∧
      List.Forall₂
        (fun row doc =>
          List.lookup "Doba" doc = some (dobaFor 1710025200 (rowHour row)))
        [bdRow] resRest :=
  claim7_amended_thm [] [noBDRow] [] bdRow bdFields "2024-03-10" 1710025200
    mixedRes (some 1710025200) (by decide) (by decide) rfl rfl (by decide)
    rfl rfl

/-- C10: the day key comes from the first record (in iteration order) whose
`business_date` is truthy; all records before it get `Doba = None`; and a
batch with no such record keeps all timestamps `None` and writes nothing
to storage (no storage operation is issued and the store is unchanged). -/
theorem claim10_day_key_from_first_carrier :
    (∀ (cols : List String) (pre rest : List PyObj) (c : PyObj)
       (fs : List (String × PyObj)) (s : String) (t : Int)
       (res : List NRec) (sdF : Option Int),
       "Doba" ∉ cols →
       (∀ r ∈ pre, rowCarries r = false) →
       asDict c = some fs →
       dictGetD fs "business_date" = PyObj.pstr s →
       s ≠ "" →
       start_of_business_day_utc s = some t →
       processRowsAux cols Option.none (pre ++ c :: rest) = .ok (res, sdF) →
       sdF = some t ∧
       ∃ resPre resRest, res = resPre ++ resRest ∧
         resPre.length = pre.length ∧
         (∀ doc ∈ resPre, List.lookup "Doba" doc = some PyObj.none)) ∧
    (∀ (p : Processor) (payload : PyObj) (store : Store) (now : Int)
       (items : List PyObj) (res : List NRec) (st : Store) (ops : List MOp),
       "Doba" ∉ p.int_cols →
       getItems payload = .ok items →
       (∀ r ∈ items, rowCarries r = false) →
       process_json_value p payload store now = .ok (res, st, ops) →
       st = store ∧ ops = [] ∧
       ∀ doc ∈ res, List.lookup "Doba" doc = some PyObj.none) := by
  constructor
  · intro cols pre rest c fs s t res sdF hD hpre hc hbd hne hday hproc
    obtain ⟨resPre, resZ, hsplit, hnull, hz⟩ :=
      processRowsAux_split cols hD pre (c :: rest) res sdF hpre hproc
    obtain ⟨hsd, _⟩ :=
      processRowsAux_carrier cols hD c rest fs s t resZ sdF hc hbd hne hday hz
    have hlen1 : res.length = (pre ++ c :: rest).length :=
      processRowsAux_length cols (pre ++ c :: rest) Option.none res sdF hproc
    have hlen2 : resZ.length = (c :: rest).length :=
      processRowsAux_length cols (c :: rest) Option.none resZ sdF hz
    refine ⟨hsd, resPre, resZ, hsplit, ?_, hnull⟩
    have := congrArg List.length hsplit
    simp only [List.length_append, List.length_cons] at this hlen1 hlen2 ⊢
    omega
  · intro p payload store now items res st ops hD hitems hnc hp
    simp only [process_json_value, hitems] at hp
    cases hproc : processRowsAux p.int_cols Option.none items with
    | error e => simp only [hproc] at hp; exact Except.noConfusion hp
    | ok pr =>
      obtain ⟨res0, sdF⟩ := pr
      obtain ⟨hsdF, hall⟩ :=
        processRowsAux_none_nocarrier p.int_cols hD items res0 sdF hnc hproc
      simp only [hproc, hsdF] at hp
      simp only [Except.ok.injEq, Prod.mk.injEq] at hp
      obtain ⟨h1, h2, h3⟩ := hp
      exact ⟨h2.symm, h3.symm, by rw [← h1]; exact hall⟩

/-- Witness for C10: the two-row batch instantiates the first part; a
single-row batch with no `business_date` instantiates the second — the
store is untouched and no storage call is made. -/
theorem claim10_witness :
    ((some 1710025200 : Option Int) = some 1710025200 ∧
     ∃ resPre resRest, mixedRes = resPre ++ resRest ∧
       resPre.length = [noBDRow].length ∧
       (∀ doc ∈ resPre, List.lookup "Doba" doc = some PyObj.none)) ∧
    (([] : Store) = [] ∧ ([] : List MOp) = [] ∧
     ∀ doc ∈ [mkDoc scenProc.int_cols Option.none noBDFields],
       List.lookup "Doba" doc = some PyObj.none) :=
  ⟨claim10_day_key_from_first_carrier.1 [] [noBDRow] [] bdRow bdFields
      "2024-03-10" 1710025200 mixedRes (some 1710025200) (by decide)
      (by decide) rfl rfl (by decide) rfl rfl,
   claim10_day_key_from_first_carrier.2 scenProc
      (PyObj.pdict [("value", PyObj.plist [noBDRow])]) [] 99 [noBDRow]
      [mkDoc scenProc.int_cols Option.none noBDFields] [] [] (by decide)
      rfl (by decide) rfl⟩

/-- C1: with a non-empty batch and a derived day key (and a configured,
healthy store), the merge inserts a fresh document with
`first = newest = batch` and `last_update = now` when no document for the
day exists, and otherwise rewrites only `newest` and `last_update` of the
matched document — every document's `first` (and `data_cet`) is unchanged
by such a later write. -/
theorem claim1_upsert_merge
    (p : Processor) (payload : PyObj) (store : Store) (now : Int)
    (items : List PyObj) (result : List NRec) (k : Int)
    (hitems : getItems payload = .ok items)
    (hproc : processRowsAux p.int_cols Option.none items = .ok (result, some k))
    (hm : p.has_mongo = true) (hk : kolTruthy p.kolekcja_mongo = true)
    (hne : result.isEmpty = false)
    (hc : p.connect_ok = true) (hw : p.write_ok = true) :
    (findOneByDataCet store k = Option.none →
       process_json_value p payload store now =
         .ok (result, store ++ [⟨store.length, k, result, result, now⟩],
              [MOp.find_one k, MOp.insert_one k result result now])) ∧
    (∀ ex, findOneByDataCet store k = some ex →
       process_json_value p payload store now =
         .ok (result, updateNewest store ex.oid result now,
              [MOp.find_one k, MOp.update_one ex.oid result now false]) ∧
       (updateNewest store ex.oid result now).map StoredDoc.first =
         store.map StoredDoc.first ∧
       (updateNewest store ex.oid result now).map StoredDoc.data_cet =
         store.map StoredDoc.data_cet) := by
  constructor
  · intro hfind
    simp [process_json_value, hitems, hproc, hm, hk, hne, hc, hw, hfind]
  · intro ex hfind
    refine ⟨by simp [process_json_value, hitems, hproc, hm, hk, hne, hc, hw, hfind], ?_, ?_⟩
    · simp only [updateNewest, List.map_map]
      refine List.map_congr_left ?_
      intro d _
      simp only [Function.comp]
      split <;> rfl
    · simp only [updateNewest, List.map_map]
      refine List.map_congr_left ?_
      intro d _
      simp only [Function.comp]
      split <;> rfl

/-- Witness for C1 at the scenario payload against an empty store: the
insert branch runs and stores `first = newest = the batch`. -/
theorem claim1_witness :
    process_json_value scenProc scenPayload [] 99 =
      .ok (scenRes, [⟨0, 1710025200, scenRes, scenRes, 99⟩],
           [MOp.find_one 1710025200,
            MOp.insert_one 1710025200 scenRes scenRes 99]) :=
  (claim1_upsert_merge scenProc scenPayload [] 99 [scenRow] scenRes 1710025200
    rfl rfl rfl rfl rfl rfl rfl).1 rfl

/-- C3 is refuted when `connect()` fails: the persistence step is silently
skipped — `process_json_value` returns normally with the store untouched
and no storage call — and the (spec-modelled) run even exits 0, so a
storage connection failure is neither surfaced nor fatal. -/
theorem claim3_counterexample :
    process_json_value noConnProc scenPayload [] 99 = .ok (scenRes, [], []) ∧
    main_exit true
      ((process_and_save (JDlResult.ok scenPayload 1 0) noConnProc [] 99).map
        Prod.fst) = 0 :=
  ⟨rfl, rfl⟩

/-- C3 (amended): a storage *write* failure propagates out of
`process_json_value` (the single `insert_one`/`update_one` has no handler),
and at most one write call is issued per run, so there is no partial
write; but a storage *connection* failure is silently swallowed — the
write is skipped and the call returns normally. -/
theorem claim3_amended_thm
    (p : Processor) (payload : PyObj) (store : Store) (now : Int)
    (items : List PyObj) (result : List NRec) (k : Int)
    (hitems : getItems payload = .ok items)
    (hproc : processRowsAux p.int_cols Option.none items = .ok (result, some k))
    (hm : p.has_mongo = true) (hk : kolTruthy p.kolekcja_mongo = true)
    (hne : result.isEmpty = false) :
    (p.connect_ok = false →
       process_json_value p payload store now = .ok (result, store, [])) ∧
    (p.connect_ok = true → p.write_ok = false →
       process_json_value p payload store now = .error ()) ∧
    (∀ res st ops, process_json_value p payload store now = .ok (res, st, ops) →
       (ops.countP fun op => match op with
          | MOp.find_one _ => false
          | _ => true) ≤ 1) := by
  refine ⟨?_, ?_, ?_⟩
  · intro hcf
    simp [process_json_value, hitems, hproc, hm, hk, hne, hcf]
  · intro hct hwf
    cases hf : findOneByDataCet store k with
    | none => simp [process_json_value, hitems, hproc, hm, hk, hne, hct, hwf, hf]
    | some ex => simp [process_json_value, hitems, hproc, hm, hk, hne, hct, hwf, hf]
  · intro res st ops h
    simp only [process_json_value, hitems, hproc, hm, hk, hne] at h
    cases hcc : p.connect_ok with
    | false =>
      simp only [hcc, Bool.false_eq_true, if_false, if_true, Bool.and_true,
        Bool.true_and, Bool.not_false, Except.ok.injEq, Prod.mk.injEq] at h
      rw [← h.2.2]
      simp [List.countP, List.countP.go]
    | true =>
      simp only [hcc, Bool.and_true, Bool.true_and, Bool.not_false,
        if_true] at h
      cases hf : findOneByDataCet store k with
      | none =>
        simp only [hf] at h
        cases hww : p.write_ok with
        | false => simp only [hww, if_false] at h; exact Except.noConfusion h
        | true =>
          simp only [hww, if_true, Except.ok.injEq, Prod.mk.injEq] at h
          rw [← h.2.2]
          simp [List.countP, List.countP.go]
      | some ex =>
        simp only [hf] at h
        cases hww : p.write_ok with
        | false => simp only [hww, if_false] at h; exact Except.noConfusion h
        | true =>
          simp only [hww, if_true, Except.ok.injEq, Prod.mk.injEq] at h
          rw [← h.2.2]
          simp [List.countP, List.countP.go]

/-- A processor whose single write call raises. -/
def writeFailProc : Processor :=
  ⟨["Prognozowane_zapotrzebowanie_sieci"], true, some "pk5l", true, false⟩

/-- Witness for the amended C3: a failing `connect()` is swallowed, while
a failing write propagates as an exception. -/
theorem claim3_amended_witness :
    process_json_value noConnProc scenPayload [] 99 = .ok (scenRes, [], []) ∧
    process_json_value writeFailProc scenPayload [] 99 = .error () :=
  ⟨(claim3_amended_thm noConnProc scenPayload [] 99 [scenRow] scenRes
      1710025200 rfl rfl rfl rfl rfl).1 rfl,
   (claim3_amended_thm writeFailProc scenPayload [] 99 [scenRow] scenRes
      1710025200 rfl rfl rfl rfl rfl).2.1 rfl rfl⟩

/-- C4: on a fresh day the persistence step issues two separate storage
calls — `find_one({'data_cet': k})` followed by `insert_one(...)` — and no
call in the trace is an upsert-flagged `update_one`; the code implements
the day merge as application-level read-then-write, not as one atomic
upsert primitive. -/
theorem claim4_find_then_insert :
    process_json_value scenProc scenPayload [] 99 =
      .ok (scenRes, [⟨0, 1710025200, scenRes, scenRes, 99⟩],
           [MOp.find_one 1710025200,
            MOp.insert_one 1710025200 scenRes scenRes 99]) ∧
    [MOp.find_one 1710025200,
     MOp.insert_one 1710025200 scenRes scenRes 99].length = 2 ∧
    ([MOp.find_one 1710025200,
      MOp.insert_one 1710025200 scenRes scenRes 99].all
       fun op => match op with
         | MOp.update_one _ _ _ u => !u
         | _ => true) = true :=
  ⟨rfl, rfl, rfl⟩

/-- One unfolding of the `download` retry loop. -/
theorem download_go_succ (att : Nat → HResp) (fuel i slept : Nat) :
    download_go att (fuel + 1) i slept =
      match classifyResp (att i) with
      | .ok body => .ok body (i + 1) slept
      | .error e =>
        if fuel = 0 then .exhausted e (i + 1) slept
        else download_go att fuel (i + 1) (slept + RETRY_DELAY) := rfl

/-- One unfolding of the `download_json` retry loop. -/
theorem download_json_go_succ (att : Nat → JResp) (fuel i slept : Nat) :
    download_json_go att (fuel + 1) i slept =
      match jClassify (att i) with
      | .error e =>
        if fuel = 0 then .exhausted e (i + 1) slept
        else download_json_go att fuel (i + 1) (slept + RETRY_DELAY)
      | .ok (some j) => .ok j (i + 1) slept
      | .ok Option.none => .jsonDecodeError (i + 1) slept := rfl

/-- If every remaining attempt fails, the loop makes them all, sleeps
between consecutive attempts, and exhausts carrying the last failure. -/
theorem download_go_exhaust :
    ∀ (fuel : Nat) (att : Nat → HResp) (i slept : Nat) (e : FetchErr),
      (∀ j, j + 1 < fuel → ∃ e2, classifyResp (att (i + j)) = .error e2) →
      fuel ≠ 0 →
      classifyResp (att (i + (fuel - 1))) = .error e →
      download_go att fuel i slept =
        .exhausted e (i + fuel) (slept + (fuel - 1) * RETRY_DELAY) := by
  intro fuel
  induction fuel with
  | zero => intro att i slept e _ hne _; exact absurd rfl hne
  | succ f ih =>
    intro att i slept e hall hne hlast
    rw [download_go_succ]
    cases f with
    | zero =>
      have hl : classifyResp (att i) = .error e := by simpa using hlast
      rw [hl]
      simp
    | succ f2 =>
      obtain ⟨e0, he0⟩ : ∃ e2, classifyResp (att i) = .error e2 := by
        simpa using hall 0 (by omega)
      simp only [he0]
      rw [if_neg (Nat.succ_ne_zero f2)]
      have ih2 := ih att (i + 1) (slept + RETRY_DELAY) e
        (fun j hj => by
          have := hall (j + 1) (by omega)
          rwa [show i + (j + 1) = i + 1 + j from by omega] at this)
        (Nat.succ_ne_zero f2)
        (by
          have := hlast
          rwa [show i + (f2 + 1 + 1 - 1) = i + 1 + (f2 + 1 - 1) from by omega]
            at this)
      rw [ih2]
      have ha : i + 1 + (f2 + 1) = i + (f2 + 1 + 1) := by omega
      have hb : slept + RETRY_DELAY + (f2 + 1 - 1) * RETRY_DELAY =
          slept + (f2 + 1 + 1 - 1) * RETRY_DELAY := by
        simp only [Nat.add_sub_cancel]
        ring
      rw [ha, hb]

/-- Same exhaustion fact for the `download_json` loop. -/
theorem download_json_go_exhaust :
    ∀ (fuel : Nat) (att : Nat → JResp) (i slept : Nat) (e : FetchErr),
      (∀ j, j + 1 < fuel → ∃ e2, jClassify (att (i + j)) = .error e2) →
      fuel ≠ 0 →
      jClassify (att (i + (fuel - 1))) = .error e →
      download_json_go att fuel i slept =
        .exhausted e (i + fuel) (slept + (fuel - 1) * RETRY_DELAY) := by
  intro fuel
  induction fuel with
  | zero => intro att i slept e _ hne _; exact absurd rfl hne
  | succ f ih =>
    intro att i slept e hall hne hlast
    rw [download_json_go_succ]
    cases f with
    | zero =>
      have hl : jClassify (att i) = .error e := by simpa using hlast
      rw [hl]
      simp
    | succ f2 =>
      obtain ⟨e0, he0⟩ : ∃ e2, jClassify (att i) = .error e2 := by
        simpa using hall 0 (by omega)
      simp only [he0]
      rw [if_neg (Nat.succ_ne_zero f2)]
      have ih2 := ih att (i + 1) (slept + RETRY_DELAY) e
        (fun j hj => by
          have := hall (j + 1) (by omega)
          rwa [show i + (j + 1) = i + 1 + j from by omega] at this)
        (Nat.succ_ne_zero f2)
        (by
          have := hlast
          rwa [show i + (f2 + 1 + 1 - 1) = i + 1 + (f2 + 1 - 1) from by omega]
            at this)
      rw [ih2]
      have ha : i + 1 + (f2 + 1) = i + (f2 + 1 + 1) := by omega
      have hb : slept + RETRY_DELAY + (f2 + 1 - 1) * RETRY_DELAY =
          slept + (f2 + 1 + 1 - 1) * RETRY_DELAY := by
        simp only [Nat.add_sub_cancel]
        ring
      rw [ha, hb]

/-- C5: when every attempt fails, `download` and `download_json` raise the
exhaustion error carrying the last underlying failure after exactly
`MAX_RETRIES = 10` attempts, and the total time slept is the fixed-delay
policy's `(MAX_RETRIES - 1) * RETRY_DELAY = 9 × 300 s = 2700 s`. -/
theorem claim5_retry_exhaustion
    (attD : Nat → HResp) (attJ : Nat → JResp)
    (hD : ∀ i, i < MAX_RETRIES → ∃ e, classifyResp (attD i) = .error e)
    (hJ : ∀ i, i < MAX_RETRIES → ∃ e, jClassify (attJ i) = .error e) :
    (∀ e, classifyResp (attD (MAX_RETRIES - 1)) = .error e →
       download attD =
         .exhausted e MAX_RETRIES ((MAX_RETRIES - 1) * RETRY_DELAY)) ∧
    (∀ e, jClassify (attJ (MAX_RETRIES - 1)) = .error e →
       download_json attJ =
         .exhausted e MAX_RETRIES ((MAX_RETRIES - 1) * RETRY_DELAY)) ∧
    MAX_RETRIES = 10 ∧ (MAX_RETRIES - 1) * RETRY_DELAY = 2700 := by
  refine ⟨?_, ?_, rfl, rfl⟩
  · intro e hlast
    have h := download_go_exhaust MAX_RETRIES attD 0 0 e
      (fun j hj => by simpa using hD j (by omega))
      (by decide)
      (by simpa using hlast)
    simpa [download] using h
  · intro e hlast
    have h := download_json_go_exhaust MAX_RETRIES attJ 0 0 e
      (fun j hj => by simpa using hJ j (by omega))
      (by decide)
      (by simpa using hlast)
    simpa [download_json] using h

/-- Witness for C5: a fetcher whose every attempt raises a transport
exception exhausts after 10 attempts and 2700 s of sleeping. -/
theorem claim5_witness :
    download (fun _ => HResp.exc 7) =
      .exhausted (FetchErr.requestExc 7) MAX_RETRIES
        ((MAX_RETRIES - 1) * RETRY_DELAY) ∧
    download_json (fun _ => JResp.exc 3) =
      .exhausted (FetchErr.requestExc 3) MAX_RETRIES
        ((MAX_RETRIES - 1) * RETRY_DELAY) :=
  ⟨(claim5_retry_exhaustion (fun _ => HResp.exc 7) (fun _ => JResp.exc 3)
      (fun _ _ => ⟨FetchErr.requestExc 7, rfl⟩)
      (fun _ _ => ⟨FetchErr.requestExc 3, rfl⟩)).1 (FetchErr.requestExc 7) rfl,
   (claim5_retry_exhaustion (fun _ => HResp.exc 7) (fun _ => JResp.exc 3)
      (fun _ _ => ⟨FetchErr.requestExc 7, rfl⟩)
      (fun _ _ => ⟨FetchErr.requestExc 3, rfl⟩)).2.1 (FetchErr.requestExc 3) rfl⟩

/-- C6 is refuted on the minimum-size clause: a 200 response whose body is
only 10 bytes is returned by the first attempt — there is no
"incomplete, retry" treatment of bodies below 100 bytes anywhere in
`download`. -/
theorem claim6_counterexample :
    download (fun _ => HResp.resp 200 "0123456789") =
      DlResult.ok "0123456789" 1 0 ∧
    "0123456789".length < 100 :=
  ⟨rfl, by decide⟩

/-- C6 (amended): a 404 — like every other 4xx/5xx status — raises and is
retried as a transient failure rather than treated as permanent; any
status below 400 returns the body as is, whatever its size (no
minimum-size check). -/
theorem claim6_amended_thm (att : Nat → HResp) :
    (∀ b0 body, att 0 = HResp.resp 404 b0 → att 1 = HResp.resp 200 body →
       download att = DlResult.ok body 2 RETRY_DELAY) ∧
    (∀ st b, 400 ≤ st → st < 600 →
       classifyResp (HResp.resp st b) = .error (.httpStatus st)) ∧
    (∀ st b, st < 400 → classifyResp (HResp.resp st b) = .ok b) := by
  refine ⟨?_, ?_, ?_⟩
  · intro b0 body h0 h1
    have e0 : classifyResp (att 0) = .error (.httpStatus 404) := by
      rw [h0]; rfl
    have e1 : classifyResp (att 1) = .ok body := by
      rw [h1]; rfl
    show download_go att (9 + 1) 0 0 = DlResult.ok body 2 RETRY_DELAY
    rw [download_go_succ]
    simp only [e0]
    rw [if_neg (by decide : ¬(9 : Nat) = 0)]
    show download_go att (8 + 1) 1 (0 + RETRY_DELAY) = DlResult.ok body 2 RETRY_DELAY
    rw [download_go_succ]
    simp only [e1]
    rw [Nat.zero_add]
  · intro st b h1 h2
    simp [classifyResp, h1, h2]
  · intro st b h
    have hc : ¬(400 ≤ st ∧ st < 600) := by omega
    simp [classifyResp, hc]

/-- Witness for the amended C6: a first-attempt 404 followed by a 200 with
a 7-byte body yields that body after one retry delay. -/
theorem claim6_amended_witness :
    download (fun i => if i = 0 then HResp.resp 404 "nf"
                       else HResp.resp 200 "payload") =
      DlResult.ok "payload" 2 RETRY_DELAY ∧
    classifyResp (HResp.resp 500 "x") = .error (.httpStatus 500) ∧
    classifyResp (HResp.resp 200 "tiny") = .ok "tiny" :=
  ⟨(claim6_amended_thm
      (fun i => if i = 0 then HResp.resp 404 "nf"
                else HResp.resp 200 "payload")).1 "nf" "payload" rfl rfl,
   (claim6_amended_thm
      (fun i => if i = 0 then HResp.resp 404 "nf"
                else HResp.resp 200 "payload")).2.1 500 "x" (by decide)
     (by decide),
   (claim6_amended_thm
      (fun i => if i = 0 then HResp.resp 404 "nf"
                else HResp.resp 200 "payload")).2.2 200 "tiny" (by decide)⟩

/-- C2: the (spec-modelled) run exits 0 exactly on a successful pipeline
(config loaded, fetch succeeded, transform-and-persist returned) and 1 on
every fatal error (config failure, fetch exhaustion, processing or storage
exception); an input/configuration with exit code 0 exists (see the
witness). -/
theorem claim2_exit_codes :
    ∀ (configOk : Bool) (dl : JDlResult) (p : Processor) (store : Store)
      (now : Int),
      (main_exit configOk ((process_and_save dl p store now).map Prod.fst) = 0 ∨
       main_exit configOk ((process_and_save dl p store now).map Prod.fst) = 1) ∧
      (configOk = false →
        main_exit configOk ((process_and_save dl p store now).map Prod.fst) = 1) ∧
      (∀ e a sl, dl = JDlResult.exhausted e a sl →
        main_exit configOk ((process_and_save dl p store now).map Prod.fst) = 1) ∧
      (∀ payload a sl, dl = JDlResult.ok payload a sl →
        process_json_value p payload store now = .error () →
        main_exit configOk ((process_and_save dl p store now).map Prod.fst) = 1) ∧
      (configOk = true → ∀ payload a sl, dl = JDlResult.ok payload a sl →
        ∀ r st ops, process_json_value p payload store now = .ok (r, st, ops) →
        main_exit configOk ((process_and_save dl p store now).map Prod.fst) = 0) := by
  intro configOk dl p store now
  refine ⟨?_, ?_, ?_, ?_, ?_⟩
  · cases configOk with
    | false => right; rfl
    | true =>
      cases hps : process_and_save dl p store now with
      | error e => right; simp [main_exit, Except.map, hps]
      | ok pr =>
        obtain ⟨b, st⟩ := pr
        cases b with
        | true => left; simp [main_exit, Except.map, hps]
        | false => right; simp [main_exit, Except.map, hps]
  · intro h
    rw [h]
    rfl
  · intro e a sl h
    rw [h]
    cases configOk <;> rfl
  · intro payload a sl hdl hp
    rw [hdl]
    cases configOk with
    | false => rfl
    | true => simp [main_exit, process_and_save, hp, Except.map]
  · intro hcfg payload a sl hdl r st ops hp
    rw [hdl, hcfg]
    simp [main_exit, process_and_save, hp, Except.map]

/-- Witness for C2: a full successful run — config loads, the first fetch
attempt returns the scenario payload, the transform persists it — exits
with code 0. -/
theorem claim2_witness :
    main_exit true
      ((process_and_save
         (download_json (fun _ => JResp.resp 200 (some scenPayload)))
         scenProc [] 99).map Prod.fst) = 0 :=
  (claim2_exit_codes true
     (download_json (fun _ => JResp.resp 200 (some scenPayload)))
     scenProc [] 99).2.2.2.2 rfl scenPayload 1 0 rfl scenRes
    [⟨0, 1710025200, scenRes, scenRes, 99⟩]
    [MOp.find_one 1710025200, MOp.insert_one 1710025200 scenRes scenRes 99]
    rfl

end RDN
